import Mathlib

/-!
Verification of the SHL Assessment Recommendation Engine.

This file gives a shallow embedding, in Lean 4, of the data-cleaning
functions of `test.py` and of the retrieval / re-ranking pipeline of
`api.py`, and proves the specified properties about them.

Python strings are modelled through their character lists; Python string
operations (`split(',')`, `strip()`, `lower()`, the `in` substring test,
`re.search(r'(\d+)')`) are embedded as structural recursions on `List Char`
so that every definition evaluates by kernel reduction.
-/

namespace SHL

/-! ## Python string primitives -/

/-- Embedding of Python `s.lower()` (ASCII case folding, which is all the
repository's inputs use). -/
def lowerChars (cs : List Char) : List Char :=
  cs.map Char.toLower

/-- Embedding of Python `s.strip()`: remove leading and trailing whitespace. -/
def stripChars (cs : List Char) : List Char :=
  (((cs.dropWhile Char.isWhitespace).reverse.dropWhile Char.isWhitespace)).reverse

/-- Embedding of Python `s.split(',')`: split at every comma, keeping empty
sections, so the result always has at least one element. -/
def splitCommaChars : List Char → List (List Char)
  | [] => [[]]
  | c :: rest =>
    if c = ',' then [] :: splitCommaChars rest
    else
      match splitCommaChars rest with
      | [] => [[c]]
      | h :: t => (c :: h) :: t

/-- Python `s.strip()` lifted to `String`. -/
def pyStrip (s : String) : String :=
  String.mk (stripChars s.data)

/-- Python `s.split(',')` lifted to `String`. -/
def pySplitComma (s : String) : List String :=
  (splitCommaChars s.data).map String.mk

/-- Does `hay` start with `sub`? (helper for the Python `in` operator). -/
def beginsWith : List Char → List Char → Bool
  | _, [] => true
  | [], _ :: _ => false
  | h :: hs, s :: ss => h = s && beginsWith hs ss

/-- Embedding of the Python substring test `sub in hay`. -/
def containsSub (sub : List Char) : List Char → Bool
  | [] => beginsWith [] sub
  | c :: t => beginsWith (c :: t) sub || containsSub sub t

/-- Value of a digit run, as Python `int` applied to a digit string. -/
def digitsToNat (cs : List Char) : Nat :=
  cs.foldl (fun acc c => acc * 10 + (c.toNat - '0'.toNat)) 0

/-- Embedding of `re.search(r'(\d+)', s)`: the value of the first maximal
digit run in the string, or `none` when the string has no digit. -/
def findFirstNat : List Char → Option Nat
  | [] => none
  | c :: t =>
    if c.isDigit then some (digitsToNat ((c :: t).takeWhile Char.isDigit))
    else findFirstNat t

/-! ## test.py — data cleaning -/

/-- Possible runtime shapes of a raw `duration` field, as `clean_duration`
distinguishes them: a `str`, a numeric value, or an absent / `None` value
(anything that is not a `str`). -/
inductive DurationRaw where
  | str (s : String)
  | num (n : Int)
  | absent
deriving DecidableEq, Repr

/-- Embedding of `clean_duration` (test.py lines 9-20): on a string, the
first integer substring, else 0; every non-string input (numbers included)
takes the `not isinstance(duration_str, str)` guard and returns 0. -/
def clean_duration : DurationRaw → Int
  | .str s =>
    match findFirstNat s.data with
    | some n => Int.ofNat n
    | none => 0
  | .num _ => 0
  | .absent => 0

/-- Embedding of the duration cast in `get_candidates_from_db`
(api.py lines 72-76): `int(float(meta.get('duration', 0)))` inside
`try/except`. The argument models the outcome of the conversion:
`some n` when `int(float(raw))` evaluates to `n` — in particular a numeric
input `n` converts to itself — and `none` when the conversion raises,
in which case the `except` branch yields 0. -/
def api_duration (conv : Option Int) : Int :=
  conv.getD 0

/-- Embedding of `normalize_yes_no` (test.py lines 22-39). A falsy input
(Python `None` or the empty string) is modelled as `""`. The branches are
in source order: green / "yes" / "supported" markers first, then
red / "no" / "not supported" markers, then the fail-closed default. -/
def normalize_yes_no (value : String) : String :=
  if value = "" then "No"
  else
    let val_str := lowerChars value.data
    if containsSub "🟢".data val_str || containsSub "yes".data val_str ||
        containsSub "supported".data val_str then "Yes"
    else if containsSub "🔴".data val_str || containsSub "no".data val_str ||
        containsSub "not supported".data val_str then "No"
    else "No"

/-- Possible runtime shapes of a raw `test_type` field: a `str`, a list of
strings, an absent key, or any other (non-str, non-list) value. -/
inductive TestTypeRaw where
  | str (s : String)
  | list (l : List String)
  | absent
  | other
deriving DecidableEq, Repr

/-- Embedding of the `test_type` normalization inside `clean_json`
(test.py lines 67-71): `item.get("test_type", "Unknown")` makes an absent
key the string `"Unknown"`, a string is comma-split and stripped, a list
passes through unchanged, and any other value becomes `["Unknown"]`. -/
def clean_test_type : TestTypeRaw → List String
  | .str s => (pySplitComma s).map pyStrip
  | .list l => l
  | .absent => (pySplitComma "Unknown").map pyStrip
  | .other => ["Unknown"]

/-- Embedding of the `test_type` normalization inside
`get_candidates_from_db` (api.py lines 66-70): `meta.get('test_type', "")`
makes an absent key the empty string; a string is comma-split and stripped
unless it is empty (falsy), in which case the result is `[]`; every
non-string value also yields `[]`. -/
def api_test_type : TestTypeRaw → List String
  | .str s => if s = "" then [] else (pySplitComma s).map pyStrip
  | .list _ => []
  | .absent => []
  | .other => []

/-! ## api.py — retrieval and re-ranking -/

/-- The `raw_data` record built for each candidate in
`get_candidates_from_db` (api.py lines 83-91), which is exactly the shape
of the `AssessmentItem` response model. -/
structure AssessmentRecord where
  assessment_url : String
  assessment_name : String
  adaptive_support : String
  description : String
  duration : Int
  remote_support : String
  test_type : List String
deriving DecidableEq, Repr, Inhabited

/-- A retrieval candidate as built in `get_candidates_from_db`
(api.py lines 78-92): a batch-local integer id plus the fields the
re-ranking prompt uses and the `raw_data` payload. -/
structure Candidate where
  id : Int
  name : String
  description : String
  test_type : List String
  raw_data : AssessmentRecord
deriving DecidableEq, Repr

/-- Outcome of the Gemini call plus JSON parse inside the `try` block of
`rerank_with_gemini` (api.py lines 126-134): `failure` covers an exception
anywhere in the call (API error, timeout, unparsable `response.text`),
`parsed ids` a successful parse into a JSON integer array. -/
inductive LLMOutcome where
  | failure
  | parsed (ids : List Int)
deriving DecidableEq, Repr

/-- Embedding of `rerank_with_gemini` (api.py lines 98-151). The function
is total — the Python `except` handler at lines 149-151 guarantees no
exception reaches the caller, and `failure` routes through it. The
`modelAvailable` flag models `model is not None` (line 101). On a parsed
id array the loop at lines 137-141 keeps, in response order, the
`raw_data` of the first candidate whose `id` equals each returned id and
silently skips ids matching no candidate; an empty filtered result takes
the tier-2 fallback of lines 143-145. -/
def rerank_with_gemini (modelAvailable : Bool) (candidates : List Candidate)
    (outcome : LLMOutcome) : List AssessmentRecord :=
  if candidates.isEmpty then []
  else if !modelAvailable then (candidates.take 10).map Candidate.raw_data
  else
    match outcome with
    | .failure => (candidates.take 10).map Candidate.raw_data
    | .parsed ids =>
      let final_results := ids.filterMap fun cid =>
        (candidates.find? fun c => c.id == cid).map Candidate.raw_data
      if final_results.isEmpty then (candidates.take 5).map Candidate.raw_data
      else final_results

/-- Embedding of the `recommend` endpoint (api.py lines 159-169) given the
already-retrieved candidate list: it simply re-ranks and wraps the result. -/
def recommend (candidates : List Candidate) (modelAvailable : Bool)
    (outcome : LLMOutcome) : List AssessmentRecord :=
  rerank_with_gemini modelAvailable candidates outcome

/-- Whether a run of `rerank_with_gemini` reaches the
`model.generate_content` call at api.py line 127: the guards at lines
100-101 return first when the candidate list is empty or no model is
configured, so the call happens exactly when the list is non-empty and a
model exists. -/
def rerank_calls_model (modelAvailable : Bool) (candidates : List Candidate) : Bool :=
  !candidates.isEmpty && modelAvailable

/-- The record of the first candidate carrying a given local id
(the Python `next((c for c in candidates if c['id'] == cid), None)` of
api.py line 139, specialised to the case where a match exists). -/
def lookupRecord (candidates : List Candidate) (i : Int) : AssessmentRecord :=
  match candidates.find? fun c => c.id == i with
  | some c => c.raw_data
  | none => default

/-- Is a returned id present in the current candidate batch? -/
def validId (candidates : List Candidate) (i : Int) : Bool :=
  (candidates.find? fun c => c.id == i).isSome

/-! ## Concrete data used to exercise the pipeline -/

/-- A Knowledge & Skills assessment record. -/
def recKnowledge : AssessmentRecord :=
  { assessment_url := "https://www.shl.com/catalog/knowledge"
    assessment_name := "General Knowledge Test"
    adaptive_support := "No"
    description := "A knowledge and skills assessment"
    duration := 30
    remote_support := "Yes"
    test_type := ["Knowledge & Skills"] }

/-- A Personality & Behavior assessment record. -/
def recPersonality : AssessmentRecord :=
  { assessment_url := "https://www.shl.com/catalog/personality"
    assessment_name := "Occupational Personality Questionnaire"
    adaptive_support := "Yes"
    description := "A personality and behavior assessment"
    duration := 25
    remote_support := "Yes"
    test_type := ["Personality & Behavior"] }

/-- Candidate with local id 0 carrying the Knowledge record. -/
def candKnowledge : Candidate :=
  { id := 0
    name := "General Knowledge Test"
    description := "A knowledge and skills assessment"
    test_type := ["Knowledge & Skills"]
    raw_data := recKnowledge }

/-- Candidate with local id 1 carrying the Personality record. -/
def candPersonality : Candidate :=
  { id := 1
    name := "Occupational Personality Questionnaire"
    description := "A personality and behavior assessment"
    test_type := ["Personality & Behavior"]
    raw_data := recPersonality }

/-- A synthetic candidate with a given local id, for batches of any size. -/
def mkCandidate (i : Nat) : Candidate :=
  { id := Int.ofNat i
    name := "Assessment"
    description := "A generic assessment"
    test_type := ["Knowledge & Skills"]
    raw_data :=
      { assessment_url := "https://www.shl.com/catalog/generic"
        assessment_name := "Assessment"
        adaptive_support := "No"
        description := "A generic assessment"
        duration := Int.ofNat i
        remote_support := "No"
        test_type := ["Knowledge & Skills"] } }

/-! ## Helper lemmas -/

/-- The Python comma split never produces an empty list of sections. -/
theorem splitCommaChars_ne_nil (cs : List Char) : splitCommaChars cs ≠ [] := by
  match cs with
  | [] => simp [splitCommaChars]
  | c :: rest =>
    simp only [splitCommaChars]
    by_cases hc : c = ','
    · simp [hc]
    · simp only [hc, if_false]
      cases h : splitCommaChars rest <;> simp

/-- A string with no digit character has no first integer substring. -/
theorem findFirstNat_eq_none (cs : List Char) (h : ∀ c ∈ cs, c.isDigit = false) :
    findFirstNat cs = none := by
  induction cs with
  | nil => rfl
  | cons c t ih =>
    simp [findFirstNat, h c (by simp), ih fun x hx => h x (by simp [hx])]

/-- The normalizer only ever produces the two canonical strings. -/
theorem normalize_yes_no_canonical (v : String) :
    normalize_yes_no v = "Yes" ∨ normalize_yes_no v = "No" := by
  unfold normalize_yes_no
  split
  · exact Or.inr rfl
  · dsimp only
    split
    · exact Or.inl rfl
    · split
      · exact Or.inr rfl
      · exact Or.inr rfl

/-- The id-matching loop of `rerank_with_gemini` (api.py lines 137-141),
written as a `filterMap`, keeps exactly the valid ids in response order and
maps each to the record of the first candidate carrying it. -/
theorem filterMap_find_eq (candidates : List Candidate) (ids : List Int) :
    (ids.filterMap fun cid =>
        (candidates.find? fun c => c.id == cid).map Candidate.raw_data)
      = (ids.filter (validId candidates)).map (lookupRecord candidates) := by
  induction ids with
  | nil => rfl
  | cons i t ih =>
    by_cases h : (candidates.find? fun c => c.id == i).isSome
    · obtain ⟨c, hc⟩ := Option.isSome_iff_exists.mp h
      simp [List.filterMap_cons, List.filter_cons, validId, lookupRecord, hc, ih]
    · have hn : (candidates.find? fun c => c.id == i) = none :=
        Option.not_isSome_iff_eq_none.mp h
      simp [List.filterMap_cons, List.filter_cons, validId, hn, ih]

/-- A valid id requires a non-empty candidate batch. -/
theorem ne_nil_of_validId {candidates : List Candidate} {i : Int}
    (h : validId candidates i = true) : candidates ≠ [] := by
  intro he
  subst he
  simp [validId] at h

/-- On the successful path (a parsed id array with at least one valid id),
`rerank_with_gemini` returns the valid ids in response order, each mapped
to the record of the candidate carrying it. -/
theorem rerank_parsed_eq (candidates : List Candidate) (ids : List Int)
    (h : ids.filter (validId candidates) ≠ []) :
    rerank_with_gemini true candidates (.parsed ids)
      = (ids.filter (validId candidates)).map (lookupRecord candidates) := by
  obtain ⟨i, hi⟩ := List.exists_mem_of_ne_nil _ h
  have hvalid : validId candidates i = true := (List.mem_filter.mp hi).2
  have hcand : candidates ≠ [] := ne_nil_of_validId hvalid
  have h1 : candidates.isEmpty = false := List.isEmpty_eq_false.mpr hcand
  have h2 := filterMap_find_eq candidates ids
  have h3 : ((ids.filter (validId candidates)).map (lookupRecord candidates)).isEmpty = false := by
    simp [List.isEmpty_eq_false, h]
  simp [rerank_with_gemini, h1, h2, h3]

/-- Counting through a `filterMap`: every occurrence of an element that
maps to `some b` contributes an occurrence of `b` in the output. -/
theorem count_le_count_filterMap {α β : Type} [DecidableEq α] [DecidableEq β]
    (f : α → Option β) (l : List α) (a : α) (b : β) (hf : f a = some b) :
    l.count a ≤ (l.filterMap f).count b := by
  induction l with
  | nil => simp
  | cons x t ih =>
    rw [List.filterMap_cons]
    by_cases hx : x = a
    · subst hx
      rw [hf]
      simp only [List.count_cons, beq_self_eq_true, if_true]
      omega
    · have hax : (x == a) = false := beq_eq_false_iff_ne.mpr hx
      cases hfx : f x with
      | none =>
        simp only [List.count_cons, hax, Bool.false_eq_true, if_false]
        exact ih
      | some y =>
        simp only [List.count_cons, hax, Bool.false_eq_true, if_false]
        split <;> omega

/-- A batch of eleven candidates with local ids 0..10. -/
def candidatesEleven : List Candidate :=
  (List.range 11).map mkCandidate

/-- An id array naming all eleven candidates. -/
def idsEleven : List Int :=
  (List.range 11).map Int.ofNat

/-! ## The claims -/

/-- C1: for every non-empty candidate sequence, if the language-model call
throws, times out, or returns content that cannot be parsed as JSON, then
`rerank_with_gemini` returns exactly the first 10 candidates (all of them
when fewer than 10 were retrieved) in the original retrieval order. The
function is total, so no error reaches the caller; the output does not
depend on the query, which the embedding therefore omits. -/
theorem rerank_failure_returns_first_ten (candidates : List Candidate)
    (h : candidates ≠ []) :
    rerank_with_gemini true candidates .failure
      = (candidates.take 10).map Candidate.raw_data := by
  have h1 : candidates.isEmpty = false := List.isEmpty_eq_false.mpr h
  simp [rerank_with_gemini, h1]

/-- Witness for C1 on a concrete two-candidate batch. -/
theorem rerank_failure_returns_first_ten_witness :
    ([candKnowledge, candPersonality] ≠ ([] : List Candidate))
    ∧ rerank_with_gemini true [candKnowledge, candPersonality] .failure
        = ([candKnowledge, candPersonality].take 10).map Candidate.raw_data :=
  ⟨by decide,
   rerank_failure_returns_first_ten [candKnowledge, candPersonality] (by decide)⟩

/-- C2: for every non-empty candidate sequence, if the model response
parses as a JSON integer array but every returned id is absent from the
batch (the filtered result is empty), `rerank_with_gemini` returns exactly
the first 5 candidates in retrieval order (all of them when fewer than 5
were retrieved). -/
theorem rerank_all_invalid_returns_first_five (candidates : List Candidate)
    (ids : List Int) (h : candidates ≠ [])
    (hinv : ∀ i ∈ ids, (candidates.find? fun c => c.id == i) = none) :
    rerank_with_gemini true candidates (.parsed ids)
      = (candidates.take 5).map Candidate.raw_data := by
  have h1 : candidates.isEmpty = false := List.isEmpty_eq_false.mpr h
  have h2 : (ids.filterMap fun cid =>
      (candidates.find? fun c => c.id == cid).map Candidate.raw_data) = [] := by
    rw [List.filterMap_eq_nil_iff]
    intro a ha
    rw [hinv a ha]
    rfl
  simp [rerank_with_gemini, h1, h2]

/-- Witness for C2: a one-candidate batch with a response naming only
absent ids falls back to the (whole) first-5 list. -/
theorem rerank_all_invalid_returns_first_five_witness :
    ([candKnowledge] ≠ ([] : List Candidate))
    ∧ (∀ i ∈ ([5, 7] : List Int), ([candKnowledge].find? fun c => c.id == i) = none)
    ∧ rerank_with_gemini true [candKnowledge] (.parsed [5, 7])
        = ([candKnowledge].take 5).map Candidate.raw_data :=
  ⟨by decide, by decide,
   rerank_all_invalid_returns_first_five [candKnowledge] [5, 7] (by decide) (by decide)⟩

/-- C3: for every batch and every parsed id array with at least one id
present in the batch, `rerank_with_gemini` silently drops the absent ids,
keeps the surviving ids in response order, and maps each surviving id to
the record of the candidate carrying that local id. -/
theorem rerank_valid_ids_spec (candidates : List Candidate) (ids : List Int)
    (h : ids.filter (validId candidates) ≠ []) :
    rerank_with_gemini true candidates (.parsed ids)
      = (ids.filter (validId candidates)).map (lookupRecord candidates) :=
  rerank_parsed_eq candidates ids h

/-- Witness for C3, the scenario from the specification: batch with local
ids 0 (Knowledge) and 1 (Personality), response `[1, 0]`, result the
Personality record followed by the Knowledge record. -/
theorem rerank_valid_ids_spec_witness :
    (([1, 0] : List Int).filter (validId [candKnowledge, candPersonality]) ≠ [])
    ∧ rerank_with_gemini true [candKnowledge, candPersonality] (.parsed [1, 0])
        = (([1, 0] : List Int).filter (validId [candKnowledge, candPersonality])).map
            (lookupRecord [candKnowledge, candPersonality])
    ∧ rerank_with_gemini true [candKnowledge, candPersonality] (.parsed [1, 0])
        = [recPersonality, recKnowledge] :=
  ⟨by decide,
   rerank_valid_ids_spec [candKnowledge, candPersonality] [1, 0] (by decide),
   by decide⟩

/-- C4: when retrieval yields zero candidates, `recommend` returns an
empty result and the guard at api.py line 100 returns before the
`model.generate_content` call, whatever the model configuration and
whatever the model would have answered. -/
theorem recommend_empty_retrieval :
    ∀ (modelAvailable : Bool) (outcome : LLMOutcome),
      recommend [] modelAvailable outcome = []
      ∧ rerank_calls_model modelAvailable [] = false := by
  intro m o
  cases o <;> cases m <;> simp [recommend, rerank_with_gemini, rerank_calls_model]

/-- C9: on the successful path the result length equals the number of
valid ids in the response, with no cap — a response with more than 10
valid ids produces more than 10 records. -/
theorem rerank_length_uncapped (candidates : List Candidate) (ids : List Int)
    (h : 0 < (ids.filter (validId candidates)).length) :
    (rerank_with_gemini true candidates (.parsed ids)).length
      = (ids.filter (validId candidates)).length := by
  have hne : ids.filter (validId candidates) ≠ [] := List.length_pos.mp h
  rw [rerank_parsed_eq candidates ids hne, List.length_map]

/-- Witness for C9: eleven valid ids produce eleven records, more than
the 5-to-10 band the prompt asks for. -/
theorem rerank_length_uncapped_witness :
    (0 < (idsEleven.filter (validId candidatesEleven)).length)
    ∧ (rerank_with_gemini true candidatesEleven (.parsed idsEleven)).length
        = (idsEleven.filter (validId candidatesEleven)).length
    ∧ 10 < (rerank_with_gemini true candidatesEleven (.parsed idsEleven)).length :=
  ⟨by decide,
   rerank_length_uncapped candidatesEleven idsEleven (by decide),
   by decide⟩

/-- C10: a valid id repeated in the model response contributes one copy of
its record per occurrence — validation drops only absent ids and performs
no deduplication. -/
theorem rerank_no_dedup (candidates : List Candidate) (ids : List Int)
    (i : Int) (cand : Candidate)
    (hf : (candidates.find? fun x => x.id == i) = some cand)
    (hcount : 2 ≤ ids.count i) :
    2 ≤ (rerank_with_gemini true candidates (.parsed ids)).count cand.raw_data := by
  have hvalid : validId candidates i = true := by simp [validId, hf]
  have hmem : i ∈ ids := by
    by_contra hni
    rw [List.count_eq_zero_of_not_mem hni] at hcount
    omega
  have hfil : ids.filter (validId candidates) ≠ [] :=
    List.ne_nil_of_mem (List.mem_filter.mpr ⟨hmem, hvalid⟩)
  have hcand : candidates ≠ [] := ne_nil_of_validId hvalid
  have h1 : candidates.isEmpty = false := List.isEmpty_eq_false.mpr hcand
  have hfm : (ids.filterMap fun cid =>
      (candidates.find? fun x => x.id == cid).map Candidate.raw_data) ≠ [] := by
    rw [filterMap_find_eq]
    simp [hfil]
  have h3 : (ids.filterMap fun cid =>
      (candidates.find? fun x => x.id == cid).map Candidate.raw_data).isEmpty = false :=
    List.isEmpty_eq_false.mpr hfm
  have hr : rerank_with_gemini true candidates (.parsed ids)
      = ids.filterMap fun cid =>
          (candidates.find? fun x => x.id == cid).map Candidate.raw_data := by
    simp [rerank_with_gemini, h1, h3]
  have hkey : ids.count i ≤ (ids.filterMap fun cid =>
      (candidates.find? fun x => x.id == cid).map Candidate.raw_data).count cand.raw_data := by
    apply count_le_count_filterMap
    rw [hf]
    rfl
  rw [hr]
  exact le_trans hcount hkey

/-- Witness for C10: the response [0, 0] against a batch holding local id
0 yields the Knowledge record twice. -/
theorem rerank_no_dedup_witness :
    (([candKnowledge].find? fun x => x.id == 0) = some candKnowledge)
    ∧ 2 ≤ ([0, 0] : List Int).count 0
    ∧ 2 ≤ (rerank_with_gemini true [candKnowledge] (.parsed [0, 0])).count
            candKnowledge.raw_data :=
  ⟨by decide, by decide,
   rerank_no_dedup [candKnowledge] [0, 0] 0 candKnowledge (by decide) (by decide)⟩

/-- C5: the specification (and the negative-marker list in the code's own
second branch) says "not supported" normalizes to "No", fail-closed; but
the first branch of `normalize_yes_no` tests the substring "supported"
before the negative branch is reached, so the input "not supported"
actually normalizes to "Yes". This theorem evaluates the code at that
failing input. -/
theorem normalize_yes_no_not_supported_bug :
    normalize_yes_no "not supported" = "Yes" := by decide

/-- C6 counterexample: the never-empty test-type invariant fails in the
candidate retriever, where an absent (or empty, or non-string) `test_type`
yields the empty list rather than `["Unknown"]`; and even in `clean_json`
an empty string yields `[""]`, not `["Unknown"]`. -/
theorem test_type_invariant_counterexample :
    api_test_type TestTypeRaw.absent = []
    ∧ clean_test_type (TestTypeRaw.str "") = [""] := by decide

/-- C6 amended: in `clean_json` a string is comma-split and stripped in
order and the result is never empty, a list passes through unchanged, an
absent or other non-string value becomes `["Unknown"]`, but an empty
string becomes `[""]`; in the candidate retriever an absent, empty-string,
list or other value yields `[]`, and only a non-empty string is split and
stripped as in `clean_json`. -/
theorem test_type_normalization_spec :
    (∀ s, clean_test_type (.str s) = (pySplitComma s).map pyStrip)
    ∧ (∀ s, clean_test_type (.str s) ≠ [])
    ∧ (∀ l, clean_test_type (.list l) = l)
    ∧ clean_test_type .absent = ["Unknown"]
    ∧ clean_test_type .other = ["Unknown"]
    ∧ clean_test_type (.str "") = [""]
    ∧ api_test_type .absent = []
    ∧ api_test_type (.str "") = []
    ∧ (∀ l, api_test_type (.list l) = [])
    ∧ api_test_type .other = []
    ∧ (∀ s, s ≠ "" → api_test_type (.str s) = (pySplitComma s).map pyStrip) := by
  refine ⟨fun s => rfl, ?_, fun l => rfl, by decide, by decide, by decide,
    rfl, by decide, fun l => rfl, rfl, ?_⟩
  · intro s h
    apply splitCommaChars_ne_nil s.data
    simpa [clean_test_type, pySplitComma] using h
  · intro s hs
    simp [api_test_type, hs]

/-- Witness for C6 (amended): a two-category string is split and stripped
the same way on both paths. -/
theorem test_type_normalization_spec_witness :
    clean_test_type (TestTypeRaw.str "Knowledge & Skills, Personality & Behavior")
      = ["Knowledge & Skills", "Personality & Behavior"]
    ∧ api_test_type (TestTypeRaw.str "Knowledge & Skills, Personality & Behavior")
      = ["Knowledge & Skills", "Personality & Behavior"] := by
  obtain ⟨h1, -, -, -, -, -, -, -, -, -, h11⟩ := test_type_normalization_spec
  exact ⟨(h1 "Knowledge & Skills, Personality & Behavior").trans (by decide),
    (h11 "Knowledge & Skills, Personality & Behavior" (by decide)).trans (by decide)⟩

/-- C7 counterexample: `clean_duration` returns 0 on a numeric input, not
its integer value, because the `isinstance(duration_str, str)` guard sends
every non-string to 0. -/
theorem clean_duration_numeric_counterexample :
    clean_duration (DurationRaw.num 49) = 0
    ∧ clean_duration (DurationRaw.num 49) ≠ 49 := by decide

/-- C7 amended: `clean_duration` extracts the first integer substring of a
string input, returns 0 when the value is absent or has no digits, and
tolerates numeric input without raising but maps it to 0, not to its
value; the retriever's separate `int(float(.))` cast is what returns a
numeric input's integer value, with 0 on conversion failure. -/
theorem clean_duration_spec :
    clean_duration (.str "Approximate Completion Time in minutes = 49") = 49
    ∧ clean_duration (.str "") = 0
    ∧ clean_duration .absent = 0
    ∧ (∀ s, (∀ c ∈ s.data, c.isDigit = false) → clean_duration (.str s) = 0)
    ∧ (∀ n, clean_duration (.num n) = 0)
    ∧ (∀ n, api_duration (some n) = n)
    ∧ api_duration none = 0 := by
  refine ⟨by decide, by decide, rfl, ?_, fun n => rfl, fun n => rfl, rfl⟩
  intro s hs
  simp [clean_duration, findFirstNat_eq_none s.data hs]

/-- Witness for C7 (amended): a digit-free string yields 0. -/
theorem clean_duration_spec_witness :
    (∀ c ∈ ("no digits at all").data, c.isDigit = false)
    ∧ clean_duration (DurationRaw.str "no digits at all") = 0 := by
  obtain ⟨-, -, -, h4, -, -, -⟩ := clean_duration_spec
  exact ⟨by decide, h4 "no digits at all" (by decide)⟩

/-- C8: the normalizer fixes the canonical strings "Yes" and "No", and
since every output is canonical it is idempotent on all inputs. -/
theorem normalize_yes_no_idempotent :
    normalize_yes_no "Yes" = "Yes"
    ∧ normalize_yes_no "No" = "No"
    ∧ ∀ v, normalize_yes_no (normalize_yes_no v) = normalize_yes_no v := by
  refine ⟨by decide, by decide, fun v => ?_⟩
  rcases normalize_yes_no_canonical v with h | h <;> rw [h] <;> decide

end SHL
